import Mathlib

/-!
Verification of the deployment identity-resolution and authentication-orchestration
engine of TMDL Studio (`timdle-core`), against its natural-language specification.

The C# sources are shallowly embedded as executable Lean definitions:

* `TmdlStudio.Models.AuthConfig` (AuthConfig.cs) — strings model C# strings with
  `""` standing for `null` (every consumer in the modelled code distinguishes
  values only through `string.IsNullOrWhiteSpace` / `string.IsNullOrEmpty`, for
  which `null` and `""` are equivalent); timestamps are integers counting
  minutes, so `DateTime.UtcNow.AddMinutes(n)` becomes `now + n`.
* `TokenCacheService` (TokenCacheService.cs) — the auth-state file is modelled
  as an `Option AuthConfig` store; JSON serialisation of the redacted
  projection followed by deserialisation is modelled as the identity on the
  stored record (camelCase naming and the corrupt-file-as-miss policy do not
  affect the persisted field values).  The logical-id map is modelled as a
  lookup function keyed case-insensitively on the `"{workspaceId}:{logicalId}"`
  key string, exactly as `BuildLogicalMapKey` builds it.
* `DeployCommand.ResolveAuthConfig` / `MergeMissing` (DeployCommand.cs) —
  environment variables, the cache file, the legacy JSON variable, console
  prompts and the Azure CLI fallback are inputs collected in `ResolveEnv`.
* `FabricApiService.DeployAsync` reconciliation (FabricApiService.cs) — the
  remote listing is an input list of `WorkspaceItem`; every remote call the
  reconciliation issues (rename / create / update-definition / cache write) is
  recorded in an `Action` trace; rename success or failure is an oracle
  `renameOk`.  The HTTP internals of the create and update-definition calls
  are abstracted to the recorded call itself: no path below them touches the
  reconciliation routing or the logical-id mapping cache in the source.
* `FabricApiService.TryMapLogicalIdToItemId` — GUIDs are modelled by their
  .NET `ToByteArray` representation (16 bytes, mixed-endian with respect to
  the hyphenated string form); parsing models the hyphenated format
  case-insensitively and printing models `Guid.ToString()` (lowercase "D").
* `FabricApiService.WaitForOperationCompletionAsync` — the sequence of
  status-endpoint responses is an input function from the attempt number; the
  inter-poll delay (Retry-After handling) does not influence the result and
  is not modelled.
* `TokenService.AcquireTokenInteractiveAsync` / `IsCiEnvironment`
  (TokenService.cs) — the MSAL account cache, the silent / browser /
  device-code outcomes and the CI detection result are oracle inputs; each
  step the flow performs is recorded in an `AuthStep` trace, classified by
  whether it contacts a token endpoint over the network.
-/

namespace TmdlStudio

/-- Models `string.IsNullOrWhiteSpace` (with `""` standing for `null`). -/
def isNullOrWhiteSpace (s : String) : Bool :=
  s.data.all Char.isWhitespace

/-- Models `string.IsNullOrEmpty` (with `""` standing for `null`). -/
def isNullOrEmpty (s : String) : Bool :=
  s.data.isEmpty

/-- Models `string.Equals(a, b, StringComparison.OrdinalIgnoreCase)` by
an ASCII case fold of each character (the identifiers and display names the
code compares are not exercised beyond ASCII case differences). -/
def eqIgnoreCase (a b : String) : Bool :=
  a.data.map Char.toLower == b.data.map Char.toLower

/-- Models `AuthConfig` (Models/AuthConfig.cs): effective in-memory authentication and
deployment configuration.  `accessTokenExpiresOn` is `DateTime?` in minutes. -/
structure AuthConfig where
  mode : String := ""
  workspaceUrl : String := ""
  accessToken : String := ""
  accessTokenExpiresOn : Option Int := none
  accountUsername : String := ""
  modelName : String := ""
  previousModelName : String := ""
  clientId : String := ""
  clientSecret : String := ""
  tenantId : String := ""
deriving Repr, DecidableEq

/-- Models `AuthConfig.HasUsableAccessToken()`: non-empty token and either no recorded
expiry or an expiry more than the 5-minute refresh buffer in the future. -/
def AuthConfig.hasUsableAccessToken (c : AuthConfig) (now : Int) : Bool :=
  if isNullOrEmpty c.accessToken then
    false
  else
    match c.accessTokenExpiresOn with
    | none => true
    | some expiresOn => expiresOn > now + 5

/-- The redacted projection `TokenCacheService.Save` persists: every field of
the config except `clientSecret`, which is set to `null` unconditionally. -/
def saveProjection (c : AuthConfig) : AuthConfig :=
  { c with clientSecret := "" }

/-- Models `TokenCacheService.Save`: writes the redacted projection to the auth-state
store (a no-op when the config is `null`). -/
def tokenCacheSave (store : Option AuthConfig) (config : Option AuthConfig) :
    Option AuthConfig :=
  match config with
  | none => store
  | some c => some (saveProjection c)

/-- Models `TokenCacheService.Load`: returns the stored auth state, or `none` when the
file is absent (or unreadable, which the source treats as a miss). -/
def tokenCacheLoad (store : Option AuthConfig) : Option AuthConfig :=
  store

/-- The logical-id mapping cache as a lookup on `(workspaceId, logicalId)`. -/
def LogicalMap : Type :=
  String → String → Option String

/-- The empty logical-id map (absent or corrupt map file). -/
def LogicalMap.empty : LogicalMap :=
  fun _ _ => none

/-- Models `TokenCacheService.BuildLogicalMapKey`. -/
def buildLogicalMapKey (workspaceId logicalId : String) : String :=
  workspaceId ++ ":" ++ logicalId

/-- Models `TokenCacheService.GetMappedItemId`: dictionary lookup with an
`OrdinalIgnoreCase` key comparer. -/
def LogicalMap.get (m : LogicalMap) (workspaceId logicalId : String) :
    Option String :=
  m workspaceId logicalId

/-- Models `TokenCacheService.SetMappedItemId`: no-op when any argument is null or
whitespace, otherwise stores the mapping under the case-insensitive key. -/
def LogicalMap.set (m : LogicalMap) (workspaceId logicalId itemId : String) :
    LogicalMap :=
  if isNullOrWhiteSpace workspaceId || isNullOrWhiteSpace logicalId ||
      isNullOrWhiteSpace itemId then
    m
  else
    fun w l =>
      if eqIgnoreCase (buildLogicalMapKey w l)
          (buildLogicalMapKey workspaceId logicalId) then
        some itemId
      else
        m w l

/-- The CLI flags and options `DeployCommand.ResolveAuthConfig` receives
(`null` flags modelled as `""`, boolean switches as `Bool`). -/
structure CliArgs where
  workspace : String := ""
  name : String := ""
  interactive : Bool := false
  servicePrincipal : Bool := false
  clientId : String := ""
  clientSecret : String := ""
  tenantId : String := ""
deriving Repr, DecidableEq

/-- The process environment `DeployCommand.ResolveAuthConfig` consults: the
cached auth state (`TokenCacheService.Load`), the four individual `TMDL_*`
environment variables, the parsed legacy `TMDL_AUTH_CONFIG` value (`none` for
unset or for a JSON parse failure, which the source swallows), CI detection
(`TokenService.IsCiEnvironment`), the Azure CLI token fallback, the operator's
prompt answers, and the current time in minutes. -/
structure ResolveEnv where
  cache : Option AuthConfig := none
  envWorkspaceUrl : String := ""
  envClientId : String := ""
  envClientSecret : String := ""
  envTenantId : String := ""
  legacy : Option AuthConfig := none
  isCi : Bool := false
  azCliToken : String := ""
  promptMode : String := ""
  promptWorkspace : String := ""
  promptClientId : String := ""
  promptTenantId : String := ""
  now : Int := 0

/-- Models `DeployCommand.MergeMissing`: copies each field of `source` into `target`
only when `target`'s field is still null/whitespace (`none` for the expiry).
The model name is deliberately not merged; the previous-model-name slot falls
back to the source's model name when the source has no previous name. -/
def mergeMissing (target : AuthConfig) (source : Option AuthConfig) : AuthConfig :=
  match source with
  | none => target
  | some s =>
    { target with
      mode := if isNullOrWhiteSpace target.mode then s.mode else target.mode
      workspaceUrl :=
        if isNullOrWhiteSpace target.workspaceUrl then s.workspaceUrl
        else target.workspaceUrl
      accessToken :=
        if isNullOrWhiteSpace target.accessToken then s.accessToken
        else target.accessToken
      accessTokenExpiresOn :=
        match target.accessTokenExpiresOn with
        | none => s.accessTokenExpiresOn
        | some v => some v
      accountUsername :=
        if isNullOrWhiteSpace target.accountUsername then s.accountUsername
        else target.accountUsername
      previousModelName :=
        if isNullOrWhiteSpace target.previousModelName then
          if !isNullOrWhiteSpace s.previousModelName then s.previousModelName
          else s.modelName
        else target.previousModelName
      clientId :=
        if isNullOrWhiteSpace target.clientId then s.clientId
        else target.clientId
      clientSecret :=
        if isNullOrWhiteSpace target.clientSecret then s.clientSecret
        else target.clientSecret
      tenantId :=
        if isNullOrWhiteSpace target.tenantId then s.tenantId
        else target.tenantId }

/-- Models `DeployCommand.ResolveFromIndividualEnvVars`: `null` when none of the four
variables is set; otherwise an `AuthConfig` carrying them, with the mode
inferred as service-principal when both client id and tenant id are present. -/
def resolveFromIndividualEnvVars (e : ResolveEnv) : Option AuthConfig :=
  if isNullOrWhiteSpace e.envWorkspaceUrl && isNullOrWhiteSpace e.envClientId &&
      isNullOrWhiteSpace e.envClientSecret && isNullOrWhiteSpace e.envTenantId then
    none
  else
    some
      { workspaceUrl := e.envWorkspaceUrl
        clientId := e.envClientId
        clientSecret := e.envClientSecret
        tenantId := e.envTenantId
        mode :=
          if !isNullOrWhiteSpace e.envClientId && !isNullOrWhiteSpace e.envTenantId
          then "service-principal"
          else "interactive" }

/-- The CLI-flag application step of `ResolveAuthConfig` (the block headed
"Highest priority: explicit CLI flags/options"): each non-blank flag
overwrites the merged value unconditionally; the boolean mode switches set
the mode (they cannot both be set, that case errors out earlier). -/
def applyCliFlags (a : CliArgs) (c : AuthConfig) : AuthConfig :=
  { c with
    workspaceUrl :=
      if !isNullOrWhiteSpace a.workspace then a.workspace else c.workspaceUrl
    mode :=
      if a.servicePrincipal then "service-principal"
      else if a.interactive then "interactive"
      else c.mode
    clientId :=
      if !isNullOrWhiteSpace a.clientId then a.clientId else c.clientId
    clientSecret :=
      if !isNullOrWhiteSpace a.clientSecret then a.clientSecret
      else c.clientSecret
    tenantId :=
      if !isNullOrWhiteSpace a.tenantId then a.tenantId else c.tenantId }

/-- The name-override step of `ResolveAuthConfig`: a non-blank `--name`
becomes the model name, first saving the previously resolved name into
`previousModelName` (when that slot is still empty) for rename detection. -/
def applyNameOverride (a : CliArgs) (c : AuthConfig) : AuthConfig :=
  if !isNullOrWhiteSpace a.name then
    { c with
      previousModelName :=
        if isNullOrWhiteSpace c.previousModelName &&
            !isNullOrWhiteSpace c.modelName then
          c.modelName
        else c.previousModelName
      modelName := a.name }
  else c

/-- The mode-inference step of `ResolveAuthConfig`: when the mode is still
blank, infer service-principal from a present client id and tenant id, else
prompt the operator outside CI, else default to interactive. -/
def inferOrPromptMode (e : ResolveEnv) (c : AuthConfig) : AuthConfig :=
  if isNullOrWhiteSpace c.mode then
    if !isNullOrWhiteSpace c.clientId && !isNullOrWhiteSpace c.tenantId then
      { c with mode := "service-principal" }
    else if !e.isCi then
      { c with mode := e.promptMode }
    else
      { c with mode := "interactive" }
  else c

/-- The Azure CLI fallback step of `ResolveAuthConfig` (step 5 in the
source): in interactive mode with no access token yet, adopt a token the
Azure CLI can provide, valid for 30 minutes. -/
def applyAzureCliFallback (e : ResolveEnv) (c : AuthConfig) : AuthConfig :=
  if c.mode == "interactive" && isNullOrWhiteSpace c.accessToken &&
      !isNullOrWhiteSpace e.azCliToken then
    { c with
      accessToken := e.azCliToken
      accessTokenExpiresOn := some (e.now + 30) }
  else c

/-- The workspace prompt of `ResolveAuthConfig` step 6 (reached only
outside CI): ask for the workspace URL when still blank. -/
def promptWorkspaceIfMissing (e : ResolveEnv) (c : AuthConfig) : AuthConfig :=
  if isNullOrWhiteSpace c.workspaceUrl then
    { c with workspaceUrl := e.promptWorkspace }
  else c

/-- The service-principal prompts of `ResolveAuthConfig` step 6 (reached
only outside CI): in service-principal mode, ask for a still-blank client id
and tenant id. -/
def promptServicePrincipalIfMissing (e : ResolveEnv) (c : AuthConfig) :
    AuthConfig :=
  if c.mode == "service-principal" then
    { c with
      clientId :=
        if isNullOrWhiteSpace c.clientId then e.promptClientId else c.clientId
      tenantId :=
        if isNullOrWhiteSpace c.tenantId then e.promptTenantId else c.tenantId }
  else c

/-- Models `DeployCommand.ResolveAuthConfig`: rejects contradictory mode switches,
merges cache then individual environment variables then the legacy JSON
variable with `MergeMissing`, applies CLI flags by direct overwrite, applies
the name override while preserving the previous name for rename detection,
infers or prompts the mode, falls back to an Azure CLI token in interactive
mode, and (outside CI) prompts for the still-missing required fields. -/
def resolveAuthConfig (a : CliArgs) (e : ResolveEnv) : Except String AuthConfig :=
  if a.interactive && a.servicePrincipal then
    .error "Use either --interactive or --service-principal, not both."
  else
    let merged :=
      mergeMissing
        (mergeMissing (mergeMissing {} e.cache) (resolveFromIndividualEnvVars e))
        e.legacy
    let c :=
      applyAzureCliFallback e
        (inferOrPromptMode e (applyNameOverride a (applyCliFlags a merged)))
    if e.isCi then
      .ok c
    else
      .ok (promptServicePrincipalIfMissing e (promptWorkspaceIfMissing e c))

/-- A .NET `System.Guid`, represented by the 16 bytes `Guid.ToByteArray`
returns, in array order.  The hyphenated string form is mixed-endian with
respect to this order: the first three dash-separated groups are printed
little-endian (`b3 b2 b1 b0`, `b5 b4`, `b7 b6`) and the rest in order. -/
structure Guid where
  b0 : Fin 256
  b1 : Fin 256
  b2 : Fin 256
  b3 : Fin 256
  b4 : Fin 256
  b5 : Fin 256
  b6 : Fin 256
  b7 : Fin 256
  b8 : Fin 256
  b9 : Fin 256
  b10 : Fin 256
  b11 : Fin 256
  b12 : Fin 256
  b13 : Fin 256
  b14 : Fin 256
  b15 : Fin 256
deriving Repr, DecidableEq

/-- Models `Array.Reverse` applied to `Guid.ToByteArray`, reinterpreted as a GUID by
the `Guid(byte[])` constructor (which uses the same byte layout). -/
def Guid.reverseBytes (g : Guid) : Guid :=
  ⟨g.b15, g.b14, g.b13, g.b12, g.b11, g.b10, g.b9, g.b8,
   g.b7, g.b6, g.b5, g.b4, g.b3, g.b2, g.b1, g.b0⟩

/-- Lowercase hexadecimal digit, as `Guid.ToString()` prints one nibble. -/
def hexDigitChar (n : Fin 16) : Char :=
  if n.val < 10 then Char.ofNat (48 + n.val) else Char.ofNat (87 + n.val)

/-- Value of one hexadecimal digit character, upper or lower case
(`Guid.TryParse` accepts both), computed from the character code. -/
def hexCharVal (c : Char) : Option (Fin 16) :=
  let n := c.toNat
  if h : 48 ≤ n ∧ n ≤ 57 then
    some ⟨n - 48, by omega⟩
  else if h2 : 97 ≤ n ∧ n ≤ 102 then
    some ⟨n - 87, by omega⟩
  else if h3 : 65 ≤ n ∧ n ≤ 70 then
    some ⟨n - 55, by omega⟩
  else
    none

/-- The two hexadecimal characters printing one byte, high nibble first. -/
def hexByteChars (b : Fin 256) : List Char :=
  [hexDigitChar ⟨b.val / 16, by omega⟩, hexDigitChar ⟨b.val % 16, by omega⟩]

/-- Whether a character is a hexadecimal digit. -/
def isHexChar (c : Char) : Bool :=
  (hexCharVal c).isSome

/-- Value of a hexadecimal digit character, defaulting to `0` on other
characters (only used behind an `isHexChar` guard). -/
def hexCharValD (c : Char) : Fin 16 :=
  (hexCharVal c).getD 0

/-- The byte written by two hexadecimal characters, high nibble first (only
used behind `isHexChar` guards on both characters). -/
def hexPairD (hi lo : Char) : Fin 256 :=
  ⟨(hexCharValD hi).val * 16 + (hexCharValD lo).val, by omega⟩

/-- Models `Guid.TryParse` on a character list in the hyphenated 8-4-4-4-12 format
(the format `Guid.ToString()` produces and the `.platform` metadata carries),
case-insensitive in the hexadecimal digits: any other shape is rejected.
Field placement follows the mixed-endian layout described on `Guid`. -/
def parseGuidChars (l : List Char) : Option Guid :=
  match l with
  | c01 :: c02 :: c03 :: c04 :: c05 :: c06 :: c07 :: c08 :: d1 ::
    c10 :: c11 :: c12 :: c13 :: d2 ::
    c15 :: c16 :: c17 :: c18 :: d3 ::
    c20 :: c21 :: c22 :: c23 :: d4 ::
    c25 :: c26 :: c27 :: c28 :: c29 :: c30 ::
    c31 :: c32 :: c33 :: c34 :: c35 :: c36 :: [] =>
    if d1 = '-' && d2 = '-' && d3 = '-' && d4 = '-' &&
        isHexChar c01 && isHexChar c02 && isHexChar c03 && isHexChar c04 &&
        isHexChar c05 && isHexChar c06 && isHexChar c07 && isHexChar c08 &&
        isHexChar c10 && isHexChar c11 && isHexChar c12 && isHexChar c13 &&
        isHexChar c15 && isHexChar c16 && isHexChar c17 && isHexChar c18 &&
        isHexChar c20 && isHexChar c21 && isHexChar c22 && isHexChar c23 &&
        isHexChar c25 && isHexChar c26 && isHexChar c27 && isHexChar c28 &&
        isHexChar c29 && isHexChar c30 && isHexChar c31 && isHexChar c32 &&
        isHexChar c33 && isHexChar c34 && isHexChar c35 && isHexChar c36 then
      some
        { b0 := hexPairD c07 c08
          b1 := hexPairD c05 c06
          b2 := hexPairD c03 c04
          b3 := hexPairD c01 c02
          b4 := hexPairD c12 c13
          b5 := hexPairD c10 c11
          b6 := hexPairD c17 c18
          b7 := hexPairD c15 c16
          b8 := hexPairD c20 c21
          b9 := hexPairD c22 c23
          b10 := hexPairD c25 c26
          b11 := hexPairD c27 c28
          b12 := hexPairD c29 c30
          b13 := hexPairD c31 c32
          b14 := hexPairD c33 c34
          b15 := hexPairD c35 c36 }
    else
      none
  | _ => none

/-- The character sequence of `Guid.ToString()` (the hyphenated, lowercase
"D" format), in the mixed-endian layout described on `Guid`. -/
def Guid.chars (g : Guid) : List Char :=
  hexByteChars g.b3 ++ hexByteChars g.b2 ++ hexByteChars g.b1 ++
    hexByteChars g.b0 ++
    ['-'] ++ hexByteChars g.b5 ++ hexByteChars g.b4 ++
    ['-'] ++ hexByteChars g.b7 ++ hexByteChars g.b6 ++
    ['-'] ++ hexByteChars g.b8 ++ hexByteChars g.b9 ++
    ['-'] ++ hexByteChars g.b10 ++ hexByteChars g.b11 ++ hexByteChars g.b12 ++
    hexByteChars g.b13 ++ hexByteChars g.b14 ++ hexByteChars g.b15

/-- Models `Guid.ToString()`. -/
def Guid.toCanonicalString (g : Guid) : String :=
  String.mk g.chars

/-- Models `Guid.TryParse` on a string. -/
def guidTryParse (s : String) : Option Guid :=
  parseGuidChars s.data

/-- Models `FabricApiService.TryMapLogicalIdToItemId`: `null` when the logical id
does not parse as a GUID, otherwise the string form of the GUID built from
the reversed byte array. -/
def tryMapLogicalIdToItemId (logicalId : String) : Option String :=
  match guidTryParse logicalId with
  | none => none
  | some logicalGuid => some (Guid.toCanonicalString logicalGuid.reverseBytes)

/-- A remote workspace item as `FabricApiService.ListItemsByTypeAsync`
returns it (the private `WorkspaceItem` class). -/
structure WorkspaceItem where
  id : String
  displayName : String
  type : String := "SemanticModel"
deriving Repr, DecidableEq

/-- A remote call or cache write issued by the `FabricApiService.DeployAsync`
reconciliation, in issue order. -/
inductive DeployAction where
  | renameItem (itemId newName : String)
  | createItem (displayName definitionPayload : String)
  | updateDefinition (itemId : String)
  | setMappedItemId (workspaceId logicalId itemId : String)
deriving Repr, DecidableEq

/-- Models `DeployResult` (success flag plus message). -/
inductive DeployOutcome where
  | success (message : String)
  | error (message : String)
deriving Repr, DecidableEq

/-- The remote service's response to rename calls: whether
`FabricApiService.RenameItemAsync(_, itemId, newName, _)` succeeds. -/
structure RemoteEnv where
  renameOk : String → String → Bool

/-- Replays the logical-id cache writes of an action trace onto a map
(each write goes through `TokenCacheService.SetMappedItemId`). -/
def applyDeployActions (m : LogicalMap) : List DeployAction → LogicalMap
  | [] => m
  | DeployAction.setMappedItemId w l i :: rest =>
    applyDeployActions (m.set w l i) rest
  | _ :: rest => applyDeployActions m rest

/-- Stage one of the `DeployAsync` reconciliation (the
`if (!string.IsNullOrWhiteSpace(platformLogicalId))` block): identity by
logical id.  First the cached mapping, accepted only when the cached item id
still occurs in the live listing; then the deterministic byte-reversal
transform, accepted only when the candidate occurs in the listing (and
written back to the cache); finally, when an item was found under a display
name differing from the desired one, a rename call — whose failure aborts
the whole deploy with an error.  Returns
`(existingItemId, existingDisplayName, renamed, actions)` on the success
path; `null` strings are `""`.  The remote error detail interpolated into
the source's failure message is abstracted away. -/
def findByLogicalId (workspaceId platformLogicalId itemName : String)
    (semanticModels : List WorkspaceItem) (cache : LogicalMap)
    (env : RemoteEnv) :
    Except (DeployOutcome × List DeployAction)
      (String × String × Bool × List DeployAction) :=
  if isNullOrWhiteSpace platformLogicalId then
    .ok ("", "", false, [])
  else
    let cachedItemId := (cache.get workspaceId platformLogicalId).getD ""
    let p1 : String × String :=
      if !isNullOrWhiteSpace cachedItemId &&
          semanticModels.any (fun item => eqIgnoreCase item.id cachedItemId) then
        (cachedItemId,
          ((semanticModels.find? (fun item => eqIgnoreCase item.id cachedItemId)).map
            (fun item => item.displayName)).getD "")
      else
        ("", "")
    let p2 : String × String × List DeployAction :=
      if isNullOrWhiteSpace p1.1 then
        match tryMapLogicalIdToItemId platformLogicalId with
        | none => (p1.1, p1.2, [])
        | some mappedItemId =>
          if isNullOrWhiteSpace mappedItemId then
            (p1.1, p1.2, [])
          else
            match semanticModels.find?
                (fun item => eqIgnoreCase item.id mappedItemId) with
            | some mappedItem =>
              (mappedItem.id, mappedItem.displayName,
                [DeployAction.setMappedItemId workspaceId platformLogicalId
                  mappedItem.id])
            | none => (p1.1, p1.2, [])
      else
        (p1.1, p1.2, [])
    if !isNullOrWhiteSpace p2.1 && !isNullOrWhiteSpace itemName &&
        !eqIgnoreCase p2.2.1 itemName then
      if env.renameOk p2.1 itemName then
        .ok (p2.1, p2.2.1, true,
          p2.2.2 ++ [DeployAction.renameItem p2.1 itemName])
      else
        .error
          (DeployOutcome.error
            "Found semantic model by logicalId but failed to rename it",
            p2.2.2 ++ [DeployAction.renameItem p2.1 itemName])
    else
      .ok (p2.1, p2.2.1, false, p2.2.2)

/-- Stage two of the `DeployAsync` reconciliation: when the logical-id stage
found nothing, an exact case-insensitive match of the desired name against
the listing, seeding the mapping cache on a hit when a logical id is
present. -/
def findByDesiredName (workspaceId platformLogicalId itemName : String)
    (semanticModels : List WorkspaceItem)
    (s : String × String × Bool × List DeployAction) :
    String × String × Bool × List DeployAction :=
  if isNullOrWhiteSpace s.1 then
    match semanticModels.find?
        (fun item => eqIgnoreCase item.displayName itemName) with
    | some desiredNameMatch =>
      (desiredNameMatch.id, desiredNameMatch.displayName, s.2.2.1,
        s.2.2.2 ++
          (if !isNullOrWhiteSpace platformLogicalId then
            [DeployAction.setMappedItemId workspaceId platformLogicalId
              desiredNameMatch.id]
          else []))
    | none => s
  else
    s

/-- One iteration of the fallback-name loop of `DeployAsync`: skips a null,
whitespace, or already-desired candidate (`none` = continue), otherwise
looks the candidate up by display name; on a hit, renames the item to the
desired name — failure aborts the deploy — and seeds the mapping cache when
a logical id is present. -/
def tryFallbackCandidate (workspaceId platformLogicalId itemName
    fallbackName : String) (semanticModels : List WorkspaceItem)
    (env : RemoteEnv) :
    Option (Except (DeployOutcome × List DeployAction)
      (String × String × List DeployAction)) :=
  if isNullOrWhiteSpace fallbackName || eqIgnoreCase fallbackName itemName then
    none
  else
    match semanticModels.find?
        (fun item => eqIgnoreCase item.displayName fallbackName) with
    | none => none
    | some fallbackItem =>
      if env.renameOk fallbackItem.id itemName then
        some (.ok (fallbackItem.id, fallbackName,
          [DeployAction.renameItem fallbackItem.id itemName] ++
            (if !isNullOrWhiteSpace platformLogicalId then
              [DeployAction.setMappedItemId workspaceId platformLogicalId
                fallbackItem.id]
            else [])))
      else
        some (.error
          (DeployOutcome.error
            "Found existing semantic model but failed to rename it",
            [DeployAction.renameItem fallbackItem.id itemName]))

/-- Stage three of the `DeployAsync` reconciliation: when the item is still
not found, the fallback candidates — previously cached name, `.platform`
display name, database name, in that order — each tried with
`tryFallbackCandidate`, first decisive answer wins. -/
def findByFallbackNames (workspaceId platformLogicalId itemName prevName
    platformName databaseName : String) (semanticModels : List WorkspaceItem)
    (env : RemoteEnv) (s : String × String × Bool × List DeployAction) :
    Except (DeployOutcome × List DeployAction)
      (String × String × Bool × List DeployAction) :=
  if isNullOrEmpty s.1 then
    match List.findSome?
        (fun fallbackName => tryFallbackCandidate workspaceId platformLogicalId
          itemName fallbackName semanticModels env)
        [prevName, platformName, databaseName] with
    | none => .ok s
    | some (.error (out, lacts)) => .error (out, s.2.2.2 ++ lacts)
    | some (.ok (fid, fdn, lacts)) => .ok (fid, fdn, true, s.2.2.2 ++ lacts)
  else
    .ok s

/-- The reconciliation routing of `FabricApiService.DeployAsync`, from the
fetched listing to the final create or update call.  Inputs: the workspace
id, the `.platform` logical id (`""` when absent), the resolved desired
item name, the fallback name candidates (`authConfig.PreviousModelName`,
`.platform` display name, database name), the serialized definition payload
`BuildDefinitionPayload` produced, the live listing, the mapping cache, and
the remote rename oracle.  Returns the deploy outcome together with the
trace of remote calls and cache writes.  The HTTP internals of the create
and update-definition calls are abstracted to the recorded call: in the
source no code below them issues further reconciliation calls or cache
writes, and their failure modes return error results without further
routing. -/
def deployReconcile (workspaceId platformLogicalId itemName prevName
    platformName databaseName definitionPayload : String)
    (semanticModels : List WorkspaceItem) (cache : LogicalMap)
    (env : RemoteEnv) : DeployOutcome × List DeployAction :=
  match findByLogicalId workspaceId platformLogicalId itemName semanticModels
      cache env with
  | .error e => e
  | .ok s1 =>
    let s2 := findByDesiredName workspaceId platformLogicalId itemName
      semanticModels s1
    match findByFallbackNames workspaceId platformLogicalId itemName prevName
        platformName databaseName semanticModels env s2 with
    | .error e => e
    | .ok (existingItemId, _, renamed, acts) =>
      if isNullOrEmpty existingItemId then
        (DeployOutcome.success "Successfully created semantic model",
          acts ++ [DeployAction.createItem itemName definitionPayload])
      else
        (DeployOutcome.success
          (if renamed then "Successfully renamed and updated semantic model"
          else "Successfully updated semantic model"),
          acts ++ [DeployAction.updateDefinition existingItemId])

/-- One response of the operation-status endpoint, as
`WaitForOperationCompletionAsync` observes it: either a non-success HTTP
status (code and body), or a parsed body with its optional `status` string
and optional `error.message`.  The `Retry-After` hint only stretches the
inter-poll delay and plays no part in the result. -/
inductive PollResponse where
  | httpError (statusCode body : String)
  | parsed (status : Option String) (errorMessage : Option String)
deriving Repr, DecidableEq

/-- Result of `WaitForOperationCompletionAsync` (the `(success, operationId,
error)` tuple, with the operation id dropped): success, a terminal `Failed`
status carrying the server's message, a failed status query, or exhaustion
of the 60-attempt budget. -/
inductive PollerResult where
  | succeeded
  | failed (message : String)
  | queryError (message : String)
  | timedOut (message : String)
deriving Repr, DecidableEq

/-- The polling loop of `WaitForOperationCompletionAsync` from a given
attempt number with the remaining attempt budget as fuel, also counting the
polls issued.  A response with status `Succeeded` (case-insensitive) is
success; `Failed` returns the server-provided `error.message`, defaulting to
"Operation failed." when absent; a non-success HTTP status aborts with a
query error; anything else (including a missing status) polls again. -/
def waitLoop (polls : Nat → PollResponse) : Nat → Nat → PollerResult × Nat
  | _, 0 => (PollerResult.timedOut "Timed out waiting for operation completion.", 0)
  | attempt, fuel + 1 =>
    match polls attempt with
    | PollResponse.httpError code body =>
      (PollerResult.queryError
        ("Failed to query operation state: " ++ code ++ " - " ++ body), 1)
    | PollResponse.parsed status errorMessage =>
      let statusStr := status.getD ""
      if eqIgnoreCase statusStr "Succeeded" then
        (PollerResult.succeeded, 1)
      else if eqIgnoreCase statusStr "Failed" then
        (PollerResult.failed (errorMessage.getD "Operation failed."), 1)
      else
        let r := waitLoop polls (attempt + 1) fuel
        (r.1, r.2 + 1)

/-- Models `WaitForOperationCompletionAsync` after the operation id has been
extracted: the `for (int attempt = 0; attempt < 60; attempt++)` loop,
returning the result and the number of status polls issued. -/
def waitForOperationCompletion (polls : Nat → PollResponse) :
    PollerResult × Nat :=
  waitLoop polls 0 60

/-- A step of `TokenService.AcquireTokenInteractiveAsync`, classified by
whether it sends a request to a token endpoint over the network
(`getAccounts` reads the local MSAL account cache only). -/
inductive AuthStep where
  | getAccounts
  | silentAttempt
  | browserAttempt
  | deviceCodeAttempt
deriving Repr, DecidableEq

/-- Whether an `AuthStep` contacts a token endpoint over the network. -/
def AuthStep.isNetworkCall : AuthStep → Bool
  | AuthStep.getAccounts => false
  | AuthStep.silentAttempt => true
  | AuthStep.browserAttempt => true
  | AuthStep.deviceCodeAttempt => true

/-- Outcome of one MSAL acquisition attempt as the source distinguishes
them: a token, a fall-through exception (silent `MsalUiRequiredException`,
or the browser errors the `when` clause catches), or a hard error. -/
inductive MsalOutcome where
  | token (accessToken : String)
  | fallThrough
  | hardError (message : String)
deriving Repr, DecidableEq

/-- The environment `AcquireTokenInteractiveAsync` runs in: the MSAL
account cache contents, the outcomes the silent, browser and device-code
attempts would have, and whether `IsCiEnvironment()` detects a CI variable. -/
structure TokenEnv where
  accounts : List String
  silentOutcome : MsalOutcome
  browserOutcome : MsalOutcome
  deviceCodeOutcome : MsalOutcome
  isCi : Bool

/-- The error message `AcquireTokenInteractiveAsync` throws on CI detection
(abbreviated to its first sentence; the source appends usage guidance). -/
def ciRestrictionMessage : String :=
  "CI environment detected. Browser authentication is not available in CI/CD pipelines."

/-- Result of a token acquisition: a token or an error message. -/
inductive TokenResult where
  | token (accessToken : String)
  | authError (message : String)
deriving Repr, DecidableEq

/-- The part of the `AcquireTokenInteractiveAsync` flow after the silent
attempt: the CI guard (an `InvalidOperationException` carrying the CI
restriction message, which the outer catch deliberately does not wrap), then
the browser attempt when enabled (its caught exceptions fall through to the
device-code flow, other exceptions are wrapped by the outer catch), then the
device-code flow (whose `MsalServiceException` wrapper is wrapped again by
the outer catch; `fallThrough` is treated as a service exception with an
empty message). -/
def acquireTokenInteractiveTail (useBrowser : Bool) (env : TokenEnv)
    (trace : List AuthStep) : TokenResult × List AuthStep :=
  if env.isCi then
    (TokenResult.authError ciRestrictionMessage, trace)
  else
    let afterBrowser :
        Except (TokenResult × List AuthStep) (List AuthStep) :=
      if useBrowser then
        match env.browserOutcome with
        | MsalOutcome.token t =>
          .error (TokenResult.token t, trace ++ [AuthStep.browserAttempt])
        | MsalOutcome.fallThrough => .ok (trace ++ [AuthStep.browserAttempt])
        | MsalOutcome.hardError m =>
          .error (TokenResult.authError ("Failed to acquire token: " ++ m),
            trace ++ [AuthStep.browserAttempt])
      else
        .ok trace
    match afterBrowser with
    | .error r => r
    | .ok trace2 =>
      match env.deviceCodeOutcome with
      | MsalOutcome.token t =>
        (TokenResult.token t, trace2 ++ [AuthStep.deviceCodeAttempt])
      | MsalOutcome.fallThrough =>
        (TokenResult.authError
          ("Failed to acquire token: " ++
            ("Failed to acquire token via device code: " ++ "")),
          trace2 ++ [AuthStep.deviceCodeAttempt])
      | MsalOutcome.hardError m =>
        (TokenResult.authError
          ("Failed to acquire token: " ++
            ("Failed to acquire token via device code: " ++ m)),
          trace2 ++ [AuthStep.deviceCodeAttempt])

/-- Models `TokenService.AcquireTokenInteractiveAsync(useBrowser)`: read the MSAL
account cache; when it is non-empty, attempt silent acquisition (its
`MsalUiRequiredException` falls through to the interactive path, any other
exception is wrapped by the outer catch and surfaced); then the CI guard,
browser attempt and device-code fallback of `acquireTokenInteractiveTail`.
Returns the result together with the trace of steps taken. -/
def acquireTokenInteractive (useBrowser : Bool) (env : TokenEnv) :
    TokenResult × List AuthStep :=
  let trace0 := [AuthStep.getAccounts]
  if env.accounts.isEmpty then
    acquireTokenInteractiveTail useBrowser env trace0
  else
    match env.silentOutcome with
    | MsalOutcome.token t =>
      (TokenResult.token t, trace0 ++ [AuthStep.silentAttempt])
    | MsalOutcome.fallThrough =>
      acquireTokenInteractiveTail useBrowser env
        (trace0 ++ [AuthStep.silentAttempt])
    | MsalOutcome.hardError m =>
      (TokenResult.authError ("Failed to acquire token: " ++ m),
        trace0 ++ [AuthStep.silentAttempt])

/-- A string has empty character data exactly when it is the empty string. -/
theorem string_data_eq_nil_iff (s : String) : s.data = [] ↔ s = "" := by
  cases s with
  | mk d =>
    constructor
    · intro h
      subst h
      rfl
    · intro h
      rw [h]

/-- C2: saving any AuthConfig and loading it back never yields a non-empty
clientSecret: the persisted projection drops the secret unconditionally. -/
theorem tokenCache_save_load_strips_clientSecret (store : Option AuthConfig)
    (config loaded : AuthConfig)
    (h : tokenCacheLoad (tokenCacheSave store (some config)) = some loaded) :
    isNullOrEmpty loaded.clientSecret = true := by
  simp only [tokenCacheLoad, tokenCacheSave, saveProjection,
    Option.some.injEq] at h
  subst h
  rfl

/-- Witness for C2 at a config whose clientSecret is non-empty. -/
theorem tokenCache_save_load_strips_clientSecret_witness :
    isNullOrEmpty
      ((saveProjection { clientSecret := "super-secret" } : AuthConfig).clientSecret) =
      true :=
  tokenCache_save_load_strips_clientSecret none { clientSecret := "super-secret" }
    (saveProjection { clientSecret := "super-secret" }) rfl

/-- C9: a cached token is usable exactly when the token string is non-empty
and either no expiry is recorded or the expiry lies more than 5 minutes
after the current time; an expiry 4 minutes from now is unusable, one 10
minutes from now is usable. -/
theorem hasUsableAccessToken_spec :
    (∀ (c : AuthConfig) (now : Int),
      c.hasUsableAccessToken now = true ↔
        c.accessToken ≠ "" ∧
          (c.accessTokenExpiresOn = none ∨
            ∃ e, c.accessTokenExpiresOn = some e ∧ now + 5 < e)) ∧
    (∀ now : Int,
      AuthConfig.hasUsableAccessToken
        { accessToken := "tok", accessTokenExpiresOn := some (now + 4) } now =
        false) ∧
    (∀ now : Int,
      AuthConfig.hasUsableAccessToken
        { accessToken := "tok", accessTokenExpiresOn := some (now + 10) } now =
        true) := by
  refine ⟨fun c now => ?_, fun now => ?_, fun now => ?_⟩
  · simp only [AuthConfig.hasUsableAccessToken, isNullOrEmpty]
    rcases hE : c.accessTokenExpiresOn with _ | e <;>
      by_cases hT : c.accessToken = "" <;>
      simp [hT, hE, string_data_eq_nil_iff, gt_iff_lt, decide_eq_true_eq]
  · have h : isNullOrEmpty "tok" = false := by decide
    simp [AuthConfig.hasUsableAccessToken, h, decide_eq_false_iff_not]
  · have h : isNullOrEmpty "tok" = false := by decide
    simp [AuthConfig.hasUsableAccessToken, h, decide_eq_true_eq]

/-- The poll count of `waitLoop` never exceeds the remaining attempt
budget. -/
theorem waitLoop_count_le_fuel (polls : Nat → PollResponse) :
    ∀ (fuel attempt : Nat), (waitLoop polls attempt fuel).2 ≤ fuel := by
  intro fuel
  induction fuel with
  | zero => intro attempt; simp [waitLoop]
  | succ n ih =>
    intro attempt
    simp only [waitLoop]
    match polls attempt with
    | PollResponse.httpError code body => simp
    | PollResponse.parsed status errorMessage =>
      simp only []
      split
      · simp
      · split
        · simp
        · simpa using Nat.succ_le_succ (ih (attempt + 1))

/-- On a status stream that keeps answering `Running`, `waitLoop` exhausts
its whole budget and times out. -/
theorem waitLoop_all_running (polls : Nat → PollResponse)
    (h : ∀ n, polls n = PollResponse.parsed (some "Running") none) :
    ∀ (fuel attempt : Nat),
      waitLoop polls attempt fuel =
        (PollerResult.timedOut "Timed out waiting for operation completion.",
          fuel) := by
  intro fuel
  induction fuel with
  | zero => intro attempt; simp [waitLoop]
  | succ n ih =>
    intro attempt
    rw [waitLoop, h attempt]
    have h1 : eqIgnoreCase "Running" "Succeeded" = false := by decide
    have h2 : eqIgnoreCase "Running" "Failed" = false := by decide
    simp [h1, h2, ih (attempt + 1)]

/-- C6: the operation poller issues at most 60 status polls; the stream
Running, Running, Succeeded yields success after exactly 3 polls; a stream
answering Failed with a message returns that message verbatim; a stream
that keeps answering Running times out after exactly 60 polls with a
timeout result distinct from success and from every Failed result. -/
theorem waitForOperationCompletion_spec :
    (∀ polls, (waitForOperationCompletion polls).2 ≤ 60) ∧
    (waitForOperationCompletion
        (fun n =>
          if n < 2 then PollResponse.parsed (some "Running") none
          else PollResponse.parsed (some "Succeeded") none) =
      (PollerResult.succeeded, 3)) ∧
    (waitForOperationCompletion
        (fun n =>
          if n = 0 then PollResponse.parsed (some "Running") none
          else PollResponse.parsed (some "Failed") (some "server boom")) =
      (PollerResult.failed "server boom", 2)) ∧
    (∀ polls,
      (∀ n, polls n = PollResponse.parsed (some "Running") none) →
      waitForOperationCompletion polls =
        (PollerResult.timedOut "Timed out waiting for operation completion.",
          60)) ∧
    (∀ m, PollerResult.timedOut m ≠ PollerResult.succeeded) ∧
    (∀ m f, PollerResult.timedOut m ≠ PollerResult.failed f) := by
  refine ⟨fun polls => waitLoop_count_le_fuel polls 60 0, by decide, by decide,
    fun polls h => waitLoop_all_running polls h 60 0, by simp, by simp⟩

/-- Witness for C6 on a stream of 61-and-more consecutive Running
responses. -/
theorem waitForOperationCompletion_spec_witness :
    waitForOperationCompletion
        (fun _ => PollResponse.parsed (some "Running") none) =
      (PollerResult.timedOut "Timed out waiting for operation completion.",
        60) :=
  waitForOperationCompletion_spec.2.2.2.1
    (fun _ => PollResponse.parsed (some "Running") none) (fun _ => rfl)


/-- C7: with no cached MSAL account and a detected CI environment, the
interactive acquisition fails with the CI restriction error after only the
local account-cache read: no browser or device-code attempt and no network
call to a token endpoint occurs, regardless of the browser switch and of
the outcomes the skipped attempts would have had. -/
theorem acquireTokenInteractive_ci_guard (useBrowser : Bool) (env : TokenEnv)
    (hAccounts : env.accounts = []) (hCi : env.isCi = true) :
    acquireTokenInteractive useBrowser env =
      (TokenResult.authError ciRestrictionMessage, [AuthStep.getAccounts]) ∧
    ∀ s ∈ (acquireTokenInteractive useBrowser env).2,
      s.isNetworkCall = false := by
  have h :
      acquireTokenInteractive useBrowser env =
        (TokenResult.authError ciRestrictionMessage, [AuthStep.getAccounts]) := by
    simp [acquireTokenInteractive, acquireTokenInteractiveTail, hAccounts, hCi]
  refine ⟨h, ?_⟩
  rw [h]
  intro s hs
  simp only [List.mem_singleton] at hs
  subst hs
  rfl

/-- Witness for C7: a CI environment with an empty account cache, browser
enabled, every skipped attempt set up to succeed. -/
theorem acquireTokenInteractive_ci_guard_witness :
    acquireTokenInteractive true
        { accounts := []
          silentOutcome := MsalOutcome.token "t1"
          browserOutcome := MsalOutcome.token "t2"
          deviceCodeOutcome := MsalOutcome.token "t3"
          isCi := true } =
      (TokenResult.authError ciRestrictionMessage, [AuthStep.getAccounts]) :=
  (acquireTokenInteractive_ci_guard true
    { accounts := []
      silentOutcome := MsalOutcome.token "t1"
      browserOutcome := MsalOutcome.token "t2"
      deviceCodeOutcome := MsalOutcome.token "t3"
      isCi := true } rfl rfl).1


/-- When the cached mapping for the logical id points at no item of the live
listing, stage one behaves exactly as with an empty cache. -/
theorem findByLogicalId_stale_cache (workspaceId platformLogicalId
    itemName : String) (semanticModels : List WorkspaceItem)
    (cache : LogicalMap) (env : RemoteEnv) (staleId : String)
    (hGet : cache.get workspaceId platformLogicalId = some staleId)
    (hStale : ∀ item ∈ semanticModels, eqIgnoreCase item.id staleId = false) :
    findByLogicalId workspaceId platformLogicalId itemName semanticModels
        cache env =
      findByLogicalId workspaceId platformLogicalId itemName semanticModels
        LogicalMap.empty env := by
  have hAny : semanticModels.any (fun item => eqIgnoreCase item.id staleId) =
      false := by
    rw [List.any_eq_false]
    intro item hItem
    simp [hStale item hItem]
  have hEmptyGet : LogicalMap.get LogicalMap.empty workspaceId
      platformLogicalId = none := rfl
  have hw : isNullOrWhiteSpace "" = true := rfl
  simp [findByLogicalId, hGet, hEmptyGet, hAny, hw]

/-- C5: a cached mapping whose item id is absent from the live remote
listing is ignored: the whole reconciliation proceeds exactly as it would
with an empty mapping cache, falling through to the deterministic transform
and then to name-based matching. -/
theorem deployReconcile_stale_cache_ignored (workspaceId platformLogicalId
    itemName prevName platformName databaseName definitionPayload : String)
    (semanticModels : List WorkspaceItem) (cache : LogicalMap)
    (env : RemoteEnv) (staleId : String)
    (hGet : cache.get workspaceId platformLogicalId = some staleId)
    (hStale : ∀ item ∈ semanticModels, eqIgnoreCase item.id staleId = false) :
    deployReconcile workspaceId platformLogicalId itemName prevName
        platformName databaseName definitionPayload semanticModels cache env =
      deployReconcile workspaceId platformLogicalId itemName prevName
        platformName databaseName definitionPayload semanticModels
        LogicalMap.empty env := by
  unfold deployReconcile
  rw [findByLogicalId_stale_cache workspaceId platformLogicalId itemName
    semanticModels cache env staleId hGet hStale]

/-- Witness for C5: a cache holding a stale item id for the logical id while
the listing only contains a different item. -/
theorem deployReconcile_stale_cache_ignored_witness :
    deployReconcile "ws1" "00112233-4455-6677-8899-aabbccddeeff" "Sales" ""
        "" "" "payload" [{ id := "live-item", displayName := "Sales" }]
        (LogicalMap.set LogicalMap.empty "ws1"
          "00112233-4455-6677-8899-aabbccddeeff" "stale-item")
        { renameOk := fun _ _ => true } =
      deployReconcile "ws1" "00112233-4455-6677-8899-aabbccddeeff" "Sales" ""
        "" "" "payload" [{ id := "live-item", displayName := "Sales" }]
        LogicalMap.empty { renameOk := fun _ _ => true } :=
  deployReconcile_stale_cache_ignored "ws1"
    "00112233-4455-6677-8899-aabbccddeeff" "Sales" "" "" "" "payload"
    [{ id := "live-item", displayName := "Sales" }]
    (LogicalMap.set LogicalMap.empty "ws1"
      "00112233-4455-6677-8899-aabbccddeeff" "stale-item")
    { renameOk := fun _ _ => true } "stale-item" (by decide) (by decide)

/-- C1 (failing input): with a cached state and the individual environment
variables both supplying the workspace URL, client id and tenant id, the
resolved configuration carries the cached values, not the environment
values — the cache is merged first and merge-missing never overwrites — so
the environment variables are not the higher-priority source the
specification describes.  The environment only fills the client secret,
which the cache never holds. -/
theorem resolveAuthConfig_cache_beats_env :
    resolveAuthConfig {}
        { cache := some
            { mode := "service-principal"
              workspaceUrl := "https://cached.example"
              clientId := "cached-client"
              tenantId := "cached-tenant" }
          envWorkspaceUrl := "https://env.example"
          envClientId := "env-client"
          envClientSecret := "env-secret"
          envTenantId := "env-tenant"
          isCi := true } =
      .ok
        { mode := "service-principal"
          workspaceUrl := "https://cached.example"
          clientId := "cached-client"
          clientSecret := "env-secret"
          tenantId := "cached-tenant" } := by
  rfl



/-- The name-override step never touches the workspace URL, mode, client
id, client secret or tenant id. -/
theorem applyNameOverride_preserves (a : CliArgs) (c : AuthConfig) :
    (applyNameOverride a c).workspaceUrl = c.workspaceUrl ∧
    (applyNameOverride a c).mode = c.mode ∧
    (applyNameOverride a c).clientId = c.clientId ∧
    (applyNameOverride a c).clientSecret = c.clientSecret ∧
    (applyNameOverride a c).tenantId = c.tenantId := by
  unfold applyNameOverride
  split <;> simp

/-- The mode-inference step never touches the workspace URL, client id,
client secret or tenant id, and keeps a non-blank mode. -/
theorem inferOrPromptMode_preserves (e : ResolveEnv) (c : AuthConfig) :
    (inferOrPromptMode e c).workspaceUrl = c.workspaceUrl ∧
    (inferOrPromptMode e c).clientId = c.clientId ∧
    (inferOrPromptMode e c).clientSecret = c.clientSecret ∧
    (inferOrPromptMode e c).tenantId = c.tenantId ∧
    (isNullOrWhiteSpace c.mode = false → (inferOrPromptMode e c).mode = c.mode) := by
  unfold inferOrPromptMode
  split
  · split
    · simp_all
    · split <;> simp_all
  · simp_all

/-- The Azure CLI fallback step only touches the token fields. -/
theorem applyAzureCliFallback_preserves (e : ResolveEnv) (c : AuthConfig) :
    (applyAzureCliFallback e c).workspaceUrl = c.workspaceUrl ∧
    (applyAzureCliFallback e c).mode = c.mode ∧
    (applyAzureCliFallback e c).clientId = c.clientId ∧
    (applyAzureCliFallback e c).clientSecret = c.clientSecret ∧
    (applyAzureCliFallback e c).tenantId = c.tenantId := by
  unfold applyAzureCliFallback
  split <;> simp

/-- The workspace prompt only touches the workspace URL, and keeps a
non-blank workspace URL. -/
theorem promptWorkspaceIfMissing_preserves (e : ResolveEnv) (c : AuthConfig) :
    (promptWorkspaceIfMissing e c).mode = c.mode ∧
    (promptWorkspaceIfMissing e c).clientId = c.clientId ∧
    (promptWorkspaceIfMissing e c).clientSecret = c.clientSecret ∧
    (promptWorkspaceIfMissing e c).tenantId = c.tenantId ∧
    (isNullOrWhiteSpace c.workspaceUrl = false →
      (promptWorkspaceIfMissing e c).workspaceUrl = c.workspaceUrl) := by
  unfold promptWorkspaceIfMissing
  split <;> simp_all

/-- The service-principal prompts only touch the client id and tenant id,
and keep them when they are non-blank. -/
theorem promptServicePrincipalIfMissing_preserves (e : ResolveEnv)
    (c : AuthConfig) :
    (promptServicePrincipalIfMissing e c).workspaceUrl = c.workspaceUrl ∧
    (promptServicePrincipalIfMissing e c).mode = c.mode ∧
    (promptServicePrincipalIfMissing e c).clientSecret = c.clientSecret ∧
    (isNullOrWhiteSpace c.clientId = false →
      (promptServicePrincipalIfMissing e c).clientId = c.clientId) ∧
    (isNullOrWhiteSpace c.tenantId = false →
      (promptServicePrincipalIfMissing e c).tenantId = c.tenantId) := by
  unfold promptServicePrincipalIfMissing
  split <;> simp_all

/-- C8: a non-empty explicit CLI flag always survives into the resolved
configuration: the cached state, individual environment variables and the
legacy JSON variable never overwrite it, whichever of them are present. -/
theorem resolveAuthConfig_cli_flags_win (a : CliArgs) (e : ResolveEnv)
    (cfg : AuthConfig) (h : resolveAuthConfig a e = Except.ok cfg) :
    (isNullOrWhiteSpace a.workspace = false → cfg.workspaceUrl = a.workspace) ∧
    (a.interactive = true → cfg.mode = "interactive") ∧
    (a.servicePrincipal = true → cfg.mode = "service-principal") ∧
    (isNullOrWhiteSpace a.clientId = false → cfg.clientId = a.clientId) ∧
    (isNullOrWhiteSpace a.clientSecret = false →
      cfg.clientSecret = a.clientSecret) ∧
    (isNullOrWhiteSpace a.tenantId = false → cfg.tenantId = a.tenantId) := by
  unfold resolveAuthConfig at h
  rcases hBoth : a.interactive && a.servicePrincipal with _ | _
  swap
  · simp [hBoth] at h
  simp only [hBoth, Bool.false_eq_true, if_false] at h
  set merged :=
    mergeMissing
      (mergeMissing (mergeMissing {} e.cache) (resolveFromIndividualEnvVars e))
      e.legacy with hMerged
  have hMode : ∀ hI : a.interactive = true, (applyCliFlags a merged).mode = "interactive" := by
    intro hI
    have hS0 : a.servicePrincipal = false := by
      rcases hx : a.servicePrincipal with _ | _
      · rfl
      · rw [hI, hx] at hBoth; exact absurd hBoth (by simp)
    simp [applyCliFlags, hS0, hI]
  have hModeS : ∀ hS : a.servicePrincipal = true, (applyCliFlags a merged).mode = "service-principal" := by
    intro hS
    simp [applyCliFlags, hS]
  have hWu : ∀ hW : isNullOrWhiteSpace a.workspace = false,
      (applyCliFlags a merged).workspaceUrl = a.workspace := by
    intro hW
    simp [applyCliFlags, hW]
  have hCid : ∀ hC : isNullOrWhiteSpace a.clientId = false,
      (applyCliFlags a merged).clientId = a.clientId := by
    intro hC
    simp [applyCliFlags, hC]
  have hCs : ∀ hC : isNullOrWhiteSpace a.clientSecret = false,
      (applyCliFlags a merged).clientSecret = a.clientSecret := by
    intro hC
    simp [applyCliFlags, hC]
  have hTid : ∀ hT : isNullOrWhiteSpace a.tenantId = false,
      (applyCliFlags a merged).tenantId = a.tenantId := by
    intro hT
    simp [applyCliFlags, hT]
  set c0 := applyCliFlags a merged with hc0
  set c1 := applyNameOverride a c0 with hc1
  set c2 := inferOrPromptMode e c1 with hc2
  set c3 := applyAzureCliFallback e c2 with hc3
  obtain ⟨p1w, p1m, p1c, p1s, p1t⟩ := applyNameOverride_preserves a c0
  obtain ⟨p2w, p2c, p2s, p2t, p2m⟩ := inferOrPromptMode_preserves e c1
  obtain ⟨p3w, p3m, p3c, p3s, p3t⟩ := applyAzureCliFallback_preserves e c2
  have hIntNotWs : isNullOrWhiteSpace "interactive" = false := rfl
  have hSpNotWs : isNullOrWhiteSpace "service-principal" = false := rfl
  split at h <;> injection h with h2 <;> subst h2
  · refine ⟨fun hW => ?_, fun hI => ?_, fun hS => ?_, fun hC => ?_,
      fun hC => ?_, fun hT => ?_⟩
    · rw [p3w, p2w, p1w, hWu hW]
    · rw [p3m, p2m, p1m, hMode hI]
      rw [p1m, hMode hI]
      exact hIntNotWs
    · rw [p3m, p2m, p1m, hModeS hS]
      rw [p1m, hModeS hS]
      exact hSpNotWs
    · rw [p3c, p2c, p1c, hCid hC]
    · rw [p3s, p2s, p1s, hCs hC]
    · rw [p3t, p2t, p1t, hTid hT]
  · obtain ⟨q1m, q1c, q1s, q1t, q1w⟩ := promptWorkspaceIfMissing_preserves e c3
    obtain ⟨q2w, q2m, q2s, q2c, q2t⟩ :=
      promptServicePrincipalIfMissing_preserves e (promptWorkspaceIfMissing e c3)
    refine ⟨fun hW => ?_, fun hI => ?_, fun hS => ?_, fun hC => ?_,
      fun hC => ?_, fun hT => ?_⟩
    · rw [q2w]
      have hx : (applyAzureCliFallback e c2).workspaceUrl = a.workspace := by
        rw [p3w, p2w, p1w, hWu hW]
      rw [q1w]
      · exact hx
      · rw [hx]; exact hW
    · rw [q2m, q1m, p3m, p2m, p1m, hMode hI]
      rw [p1m, hMode hI]
      exact hIntNotWs
    · rw [q2m, q1m, p3m, p2m, p1m, hModeS hS]
      rw [p1m, hModeS hS]
      exact hSpNotWs
    · have hx : (promptWorkspaceIfMissing e c3).clientId = a.clientId := by
        rw [q1c, p3c, p2c, p1c, hCid hC]
      rw [q2c]
      · exact hx
      · rw [hx]; exact hC
    · rw [q2s, q1s, p3s, p2s, p1s, hCs hC]
    · have hx : (promptWorkspaceIfMissing e c3).tenantId = a.tenantId := by
        rw [q1t, p3t, p2t, p1t, hTid hT]
      rw [q2t]
      · exact hx
      · rw [hx]; exact hT

/-- Witness for C8: every CLI flag set, with cache, individual environment
variables and legacy JSON all present and conflicting. -/
theorem resolveAuthConfig_cli_flags_win_witness :
    (AuthConfig.mk "interactive" "https://cli.example" "" none "" "CliName"
        "CachedModel" "cli-client" "cli-secret" "cli-tenant").workspaceUrl =
      "https://cli.example" ∧
    (AuthConfig.mk "interactive" "https://cli.example" "" none "" "CliName"
        "CachedModel" "cli-client" "cli-secret" "cli-tenant").mode =
      "interactive" ∧
    (AuthConfig.mk "interactive" "https://cli.example" "" none "" "CliName"
        "CachedModel" "cli-client" "cli-secret" "cli-tenant").clientId =
      "cli-client" ∧
    (AuthConfig.mk "interactive" "https://cli.example" "" none "" "CliName"
        "CachedModel" "cli-client" "cli-secret" "cli-tenant").clientSecret =
      "cli-secret" ∧
    (AuthConfig.mk "interactive" "https://cli.example" "" none "" "CliName"
        "CachedModel" "cli-client" "cli-secret" "cli-tenant").tenantId =
      "cli-tenant" := by
  have h := resolveAuthConfig_cli_flags_win
    { workspace := "https://cli.example", name := "CliName",
      interactive := true, servicePrincipal := false,
      clientId := "cli-client", clientSecret := "cli-secret",
      tenantId := "cli-tenant" }
    { cache := some
        { mode := "service-principal",
          workspaceUrl := "https://cached.example",
          clientId := "cached-client", tenantId := "cached-tenant",
          modelName := "CachedModel" }
      envWorkspaceUrl := "https://env.example"
      envClientId := "env-client"
      envClientSecret := "env-secret"
      envTenantId := "env-tenant"
      legacy := some
        { workspaceUrl := "https://legacy.example",
          clientSecret := "legacy-secret" }
      isCi := true }
    (AuthConfig.mk "interactive" "https://cli.example" "" none "" "CliName"
      "CachedModel" "cli-client" "cli-secret" "cli-tenant") rfl
  exact ⟨h.1 rfl, h.2.1 rfl, h.2.2.2.1 rfl, h.2.2.2.2.1 rfl,
    h.2.2.2.2.2 rfl⟩

/-- Every printed hexadecimal digit reads back as a hexadecimal digit. -/
theorem isHexChar_hexDigitChar : ∀ d : Fin 16, isHexChar (hexDigitChar d) = true := by
  decide

/-- Printing then reading one hexadecimal digit is the identity. -/
theorem hexCharValD_hexDigitChar : ∀ d : Fin 16, hexCharValD (hexDigitChar d) = d := by
  decide

/-- Printing then reading one byte is the identity, nibble by nibble. -/
theorem hexPairD_hexDigitChar (d1 d2 : Fin 16) :
    hexPairD (hexDigitChar d1) (hexDigitChar d2) =
      ⟨d1.val * 16 + d2.val, by omega⟩ := by
  simp [hexPairD, hexCharValD_hexDigitChar]

/-- Parsing the printed form of a GUID returns the GUID. -/
theorem parseGuidChars_chars (g : Guid) :
    parseGuidChars (Guid.chars g) = some g := by
  obtain ⟨b0, b1, b2, b3, b4, b5, b6, b7, b8, b9, b10, b11, b12, b13, b14, b15⟩ := g
  simp only [Guid.chars, hexByteChars, List.cons_append, List.nil_append]
  simp only [parseGuidChars, isHexChar_hexDigitChar, hexPairD_hexDigitChar]
  simp only [decide_eq_true_eq, if_pos, Bool.and_true, Bool.true_and]
  norm_num [Guid.mk.injEq]
  refine ⟨?_, ?_, ?_, ?_, ?_, ?_, ?_, ?_, ?_, ?_, ?_, ?_, ?_, ?_, ?_, ?_⟩ <;>
    (apply Fin.ext; simp; omega)

/-- Parsing the canonical string of a GUID returns the GUID. -/
theorem guidTryParse_toCanonicalString (g : Guid) :
    guidTryParse (Guid.toCanonicalString g) = some g := by
  simpa [guidTryParse, Guid.toCanonicalString] using parseGuidChars_chars g

/-- Reversing the byte array twice is the identity. -/
theorem reverseBytes_reverseBytes (g : Guid) :
    g.reverseBytes.reverseBytes = g := by
  cases g
  rfl

/-- C10: the logical-id-to-item-id transform is an involution on GUIDs: on a
string that parses as a GUID it returns the canonical string of the
byte-reversed GUID, applying it twice returns the canonical string of the
original GUID (which parses back to it), and on a string that does not
parse as a GUID it returns nothing. -/
theorem tryMapLogicalIdToItemId_involution :
    (∀ (s : String) (g : Guid), guidTryParse s = some g →
      tryMapLogicalIdToItemId s =
        some (Guid.toCanonicalString g.reverseBytes) ∧
      (tryMapLogicalIdToItemId s).bind tryMapLogicalIdToItemId =
        some (Guid.toCanonicalString g) ∧
      guidTryParse (Guid.toCanonicalString g) = some g) ∧
    (∀ s : String, guidTryParse s = none →
      tryMapLogicalIdToItemId s = none) := by
  constructor
  · intro s g h
    have h1 : tryMapLogicalIdToItemId s =
        some (Guid.toCanonicalString g.reverseBytes) := by
      simp [tryMapLogicalIdToItemId, h]
    refine ⟨h1, ?_, guidTryParse_toCanonicalString g⟩
    rw [h1, Option.some_bind]
    simp [tryMapLogicalIdToItemId,
      guidTryParse_toCanonicalString g.reverseBytes, reverseBytes_reverseBytes]
  · intro s h
    simp [tryMapLogicalIdToItemId, h]

/-- Witness for C10 at a concrete GUID string. -/
theorem tryMapLogicalIdToItemId_involution_witness :
    (tryMapLogicalIdToItemId "00112233-4455-6677-8899-aabbccddeeff").bind
        tryMapLogicalIdToItemId =
      some "00112233-4455-6677-8899-aabbccddeeff" := by
  have h := (tryMapLogicalIdToItemId_involution.1
    "00112233-4455-6677-8899-aabbccddeeff"
    (Guid.mk 0x33 0x22 0x11 0x00 0x55 0x44 0x77 0x66 0x88 0x99 0xaa 0xbb
      0xcc 0xdd 0xee 0xff) (by decide)).2.1
  have h2 : Guid.toCanonicalString
      (Guid.mk 0x33 0x22 0x11 0x00 0x55 0x44 0x77 0x66 0x88 0x99 0xaa 0xbb
        0xcc 0xdd 0xee 0xff) = "00112233-4455-6677-8899-aabbccddeeff" := by
    decide
  rw [h2] at h
  exact h

/-- Actions emitted by a successful logical-id stage: renames only ones the
remote accepted, and never a create. -/
theorem findByLogicalId_ok_acts (workspaceId platformLogicalId
    itemName : String) (semanticModels : List WorkspaceItem)
    (cache : LogicalMap) (env : RemoteEnv)
    (eid edn : String) (r : Bool) (acts : List DeployAction)
    (h : findByLogicalId workspaceId platformLogicalId itemName semanticModels
        cache env = .ok (eid, edn, r, acts)) :
    (∀ id n, DeployAction.renameItem id n ∈ acts → env.renameOk id n = true) ∧
    (∀ nm pl, DeployAction.createItem nm pl ∉ acts) := by
  simp only [findByLogicalId] at h
  repeat' split at h
  all_goals try simp_all
  all_goals
    (obtain ⟨hx1, hx2, hx3, hx4⟩ := h
     subst hx4
     constructor
     · intro id n hm
       simp_all
     · intro nm pl hm
       simp_all)

/-- An erroring logical-id stage reports an error outcome and its trace
holds no create. -/
theorem findByLogicalId_error_acts (workspaceId platformLogicalId
    itemName : String) (semanticModels : List WorkspaceItem)
    (cache : LogicalMap) (env : RemoteEnv)
    (out : DeployOutcome) (acts : List DeployAction)
    (h : findByLogicalId workspaceId platformLogicalId itemName semanticModels
        cache env = .error (out, acts)) :
    (∃ m, out = DeployOutcome.error m) ∧
    (∀ nm pl, DeployAction.createItem nm pl ∉ acts) := by
  simp only [findByLogicalId] at h
  repeat' split at h
  all_goals try simp_all
  all_goals
    (obtain ⟨hx1, hx2⟩ := h
     subst hx1
     subst hx2
     refine ⟨⟨_, rfl⟩, ?_⟩
     intro nm pl hm
     simp_all)

/-- The desired-name stage only ever appends a cache write: every rename or
create in its output trace was already in its input trace. -/
theorem findByDesiredName_acts (workspaceId platformLogicalId
    itemName : String) (semanticModels : List WorkspaceItem)
    (s : String × String × Bool × List DeployAction) :
    (∀ id n, DeployAction.renameItem id n ∈
        (findByDesiredName workspaceId platformLogicalId itemName
          semanticModels s).2.2.2 →
      DeployAction.renameItem id n ∈ s.2.2.2) ∧
    (∀ nm pl, DeployAction.createItem nm pl ∈
        (findByDesiredName workspaceId platformLogicalId itemName
          semanticModels s).2.2.2 →
      DeployAction.createItem nm pl ∈ s.2.2.2) := by
  unfold findByDesiredName
  repeat' split
  all_goals constructor
  all_goals intro x y hm
  all_goals simp_all

/-- Actions of a successful fallback-candidate attempt: a remote-accepted
rename, possibly a cache write, and never a create. -/
theorem tryFallbackCandidate_ok_acts (workspaceId platformLogicalId itemName
    fallbackName : String) (semanticModels : List WorkspaceItem)
    (env : RemoteEnv) (fid fdn : String) (lacts : List DeployAction)
    (h : tryFallbackCandidate workspaceId platformLogicalId itemName
        fallbackName semanticModels env = some (.ok (fid, fdn, lacts))) :
    (∀ id n, DeployAction.renameItem id n ∈ lacts →
      env.renameOk id n = true) ∧
    (∀ nm pl, DeployAction.createItem nm pl ∉ lacts) := by
  simp only [tryFallbackCandidate] at h
  repeat' split at h
  all_goals try simp_all
  all_goals
    (obtain ⟨hx1, hx2, hx3⟩ := h
     subst hx3
     constructor
     · intro id n hm
       simp_all
     · intro nm pl hm
       simp_all)

/-- An erroring fallback-candidate attempt reports an error outcome and its
trace holds no create. -/
theorem tryFallbackCandidate_error_acts (workspaceId platformLogicalId
    itemName fallbackName : String) (semanticModels : List WorkspaceItem)
    (env : RemoteEnv) (out : DeployOutcome) (lacts : List DeployAction)
    (h : tryFallbackCandidate workspaceId platformLogicalId itemName
        fallbackName semanticModels env = some (.error (out, lacts))) :
    (∃ m, out = DeployOutcome.error m) ∧
    (∀ nm pl, DeployAction.createItem nm pl ∉ lacts) := by
  simp only [tryFallbackCandidate] at h
  repeat' split at h
  all_goals try simp_all
  all_goals
    (obtain ⟨hx1, hx2⟩ := h
     subst hx1
     subst hx2
     refine ⟨⟨_, rfl⟩, ?_⟩
     intro nm pl hm
     simp_all)

/-- A first-success search over three candidates succeeds through one of
them. -/
theorem findSome?_three {α β : Type} (f : α → Option β) (p q d : α) (r : β)
    (h : List.findSome? f [p, q, d] = some r) :
    f p = some r ∨ f q = some r ∨ f d = some r := by
  simp only [List.findSome?_cons, List.findSome?_nil] at h
  rcases hp : f p with _ | b
  · simp only [hp] at h
    rcases hq : f q with _ | b
    · simp only [hq] at h
      rcases hd : f d with _ | b
      · simp only [hd] at h
        exact absurd h (by simp)
      · simp only [hd] at h
        exact Or.inr (Or.inr h)
    · simp only [hq] at h
      exact Or.inr (Or.inl h)
  · simp only [hp] at h
    exact Or.inl h

/-- Renames added by a successful fallback stage are remote-accepted, and
the stage never adds a create. -/
theorem findByFallbackNames_ok_acts (workspaceId platformLogicalId itemName
    prevName platformName databaseName : String)
    (semanticModels : List WorkspaceItem) (env : RemoteEnv)
    (s t : String × String × Bool × List DeployAction)
    (h : findByFallbackNames workspaceId platformLogicalId itemName prevName
        platformName databaseName semanticModels env s = .ok t) :
    (∀ id n, DeployAction.renameItem id n ∈ t.2.2.2 →
      DeployAction.renameItem id n ∈ s.2.2.2 ∨ env.renameOk id n = true) ∧
    (∀ nm pl, DeployAction.createItem nm pl ∈ t.2.2.2 →
      DeployAction.createItem nm pl ∈ s.2.2.2) := by
  simp only [findByFallbackNames] at h
  repeat' split at h
  all_goals
    first
    | (injection h with h2
       subst h2
       exact ⟨fun id n hm => Or.inl hm, fun nm pl hm => hm⟩)
    | exact Except.noConfusion h
    | (injection h with h2
       subst h2
       rename_i heq
       rcases findSome?_three _ _ _ _ _ heq with hfb | hfb | hfb <;>
         (obtain ⟨hr, hc⟩ :=
           tryFallbackCandidate_ok_acts _ _ _ _ _ _ _ _ _ hfb
          constructor
          · intro id n hm
            rw [List.mem_append] at hm
            rcases hm with hm | hm
            · exact Or.inl hm
            · exact Or.inr (hr id n hm)
          · intro nm pl hm
            rw [List.mem_append] at hm
            rcases hm with hm | hm
            · exact hm
            · exact absurd hm (hc nm pl)))

/-- An erroring fallback stage reports an error outcome, and any create in
its trace was already in its input trace. -/
theorem findByFallbackNames_error_acts (workspaceId platformLogicalId
    itemName prevName platformName databaseName : String)
    (semanticModels : List WorkspaceItem) (env : RemoteEnv)
    (s : String × String × Bool × List DeployAction)
    (out : DeployOutcome) (acts : List DeployAction)
    (h : findByFallbackNames workspaceId platformLogicalId itemName prevName
        platformName databaseName semanticModels env s =
      .error (out, acts)) :
    (∃ m, out = DeployOutcome.error m) ∧
    (∀ nm pl, DeployAction.createItem nm pl ∈ acts →
      DeployAction.createItem nm pl ∈ s.2.2.2) := by
  simp only [findByFallbackNames] at h
  repeat' split at h
  all_goals
    first
    | exact Except.noConfusion h
    | (injection h with h2
       rw [Prod.mk.injEq] at h2
       obtain ⟨hx1, hx2⟩ := h2
       subst hx1
       subst hx2
       rename_i heq
       rcases findSome?_three _ _ _ _ _ heq with hfb | hfb | hfb <;>
         (obtain ⟨hm, hc⟩ :=
           tryFallbackCandidate_error_acts _ _ _ _ _ _ _ _ hfb
          refine ⟨hm, ?_⟩
          intro nm pl hmem
          rw [List.mem_append] at hmem
          rcases hmem with hmem | hmem
          · exact hmem
          · exact absurd hmem (hc nm pl)))

/-- C3: whenever a rename call the remote service refuses occurs in a
deploy's trace, the deploy returns an error result and no create-item call
appears anywhere in the trace: a failed rename never falls through to
creating a new item. -/
theorem deployReconcile_failed_rename_aborts (workspaceId platformLogicalId
    itemName prevName platformName databaseName definitionPayload : String)
    (semanticModels : List WorkspaceItem) (cache : LogicalMap)
    (env : RemoteEnv) (outcome : DeployOutcome) (trace : List DeployAction)
    (hRun : deployReconcile workspaceId platformLogicalId itemName prevName
        platformName databaseName definitionPayload semanticModels cache
        env = (outcome, trace))
    (id newName : String)
    (hMem : DeployAction.renameItem id newName ∈ trace)
    (hFail : env.renameOk id newName = false) :
    (∃ m, outcome = DeployOutcome.error m) ∧
    (∀ nm pl, DeployAction.createItem nm pl ∉ trace) := by
  unfold deployReconcile at hRun
  rcases hL : findByLogicalId workspaceId platformLogicalId itemName
      semanticModels cache env with ⟨out1, acts1⟩ | ⟨eid, edn, r1, acts1⟩
  · simp only [hL] at hRun
    rw [Prod.mk.injEq] at hRun
    obtain ⟨ho, ha⟩ := hRun
    subst ho
    subst ha
    exact findByLogicalId_error_acts _ _ _ _ _ _ _ _ hL
  · simp only [hL] at hRun
    obtain ⟨hRenOk1, hNoCreate1⟩ :=
      findByLogicalId_ok_acts _ _ _ _ _ _ _ _ _ _ hL
    obtain ⟨hRen2, hCre2⟩ := findByDesiredName_acts workspaceId
      platformLogicalId itemName semanticModels (eid, edn, r1, acts1)
    rcases hF : findByFallbackNames workspaceId platformLogicalId itemName
        prevName platformName databaseName semanticModels env
        (findByDesiredName workspaceId platformLogicalId itemName
          semanticModels (eid, edn, r1, acts1)) with
      ⟨out2, acts2⟩ | ⟨eid2, edn2, r2, acts2⟩
    · simp only [hF] at hRun
      rw [Prod.mk.injEq] at hRun
      obtain ⟨ho, ha⟩ := hRun
      subst ho
      subst ha
      obtain ⟨hm, hc⟩ := findByFallbackNames_error_acts _ _ _ _ _ _ _ _ _ _ _ hF
      refine ⟨hm, fun nm pl hmm => ?_⟩
      exact absurd (hCre2 nm pl (hc nm pl hmm)) (hNoCreate1 nm pl)
    · simp only [hF] at hRun
      obtain ⟨hRen3, hCre3⟩ :=
        findByFallbackNames_ok_acts _ _ _ _ _ _ _ _ _ _ hF
      have hRenTrace : DeployAction.renameItem id newName ∈ acts2 → False := by
        intro hin
        rcases hRen3 id newName hin with hin2 | hok
        · rcases hRen2 id newName hin2 with hin3
          have := hRenOk1 id newName hin3
          rw [this] at hFail
          exact Bool.true_eq_false.mp hFail
        · rw [hok] at hFail
          exact Bool.true_eq_false.mp hFail
      split at hRun <;>
        (rw [Prod.mk.injEq] at hRun
         obtain ⟨ho, ha⟩ := hRun
         subst ho
         subst ha
         rw [List.mem_append] at hMem
         rcases hMem with hMem | hMem
         · exact absurd hMem (fun hin => hRenTrace hin)
         · simp at hMem)

/-- Witness for C3: the only remote item carries the previous name and the
remote refuses the rename. -/
theorem deployReconcile_failed_rename_aborts_witness :
    (∃ m, DeployOutcome.error
        "Found existing semantic model but failed to rename it" =
      DeployOutcome.error m) ∧
    (∀ nm pl, DeployAction.createItem nm pl ∉
      [DeployAction.renameItem "item-1" "NewName"]) :=
  deployReconcile_failed_rename_aborts "ws1" "" "NewName" "OldName" "" ""
    "payload" [{ id := "item-1", displayName := "OldName" }]
    LogicalMap.empty { renameOk := fun _ _ => false }
    (DeployOutcome.error
      "Found existing semantic model but failed to rename it")
    [DeployAction.renameItem "item-1" "NewName"] (by decide)
    "item-1" "NewName" (by decide) rfl

/-- A fallback candidate that matches no listed display name is skipped. -/
theorem tryFallbackCandidate_no_match (workspaceId platformLogicalId itemName
    fallbackName : String) (semanticModels : List WorkspaceItem)
    (env : RemoteEnv)
    (h : semanticModels.find?
        (fun item => eqIgnoreCase item.displayName fallbackName) = none) :
    tryFallbackCandidate workspaceId platformLogicalId itemName fallbackName
      semanticModels env = none := by
  unfold tryFallbackCandidate
  split
  · rfl
  · rw [h]

/-- C4 (amended): when no remote item matches the logical id — neither
through the cached mapping nor through the deterministic transform — and no
name candidate matches, the reconciliation issues exactly one create call,
carrying the desired name and the full definition payload, and nothing
else: in particular the mapping cache is left untouched (the create path
does not seed it). -/
theorem deployReconcile_create_path (workspaceId platformLogicalId itemName
    prevName platformName databaseName definitionPayload : String)
    (semanticModels : List WorkspaceItem) (cache : LogicalMap)
    (env : RemoteEnv)
    (hLid : isNullOrWhiteSpace platformLogicalId = false)
    (hCache : ∀ cid, cache.get workspaceId platformLogicalId = some cid →
      semanticModels.any (fun item => eqIgnoreCase item.id cid) = false)
    (hMap : ∀ mid, tryMapLogicalIdToItemId platformLogicalId = some mid →
      semanticModels.find? (fun item => eqIgnoreCase item.id mid) = none)
    (hName : ∀ fb ∈ [itemName, prevName, platformName, databaseName],
      semanticModels.find?
        (fun item => eqIgnoreCase item.displayName fb) = none) :
    deployReconcile workspaceId platformLogicalId itemName prevName
        platformName databaseName definitionPayload semanticModels cache
        env =
      (DeployOutcome.success "Successfully created semantic model",
        [DeployAction.createItem itemName definitionPayload]) ∧
    ∀ w l, (applyDeployActions cache
        (deployReconcile workspaceId platformLogicalId itemName prevName
          platformName databaseName definitionPayload semanticModels cache
          env).2).get w l = cache.get w l := by
  have hs1 : findByLogicalId workspaceId platformLogicalId itemName
      semanticModels cache env = .ok ("", "", false, []) := by
    have hws : isNullOrWhiteSpace "" = true := rfl
    rcases hc : cache.get workspaceId platformLogicalId with _ | cid
    · rcases hm : tryMapLogicalIdToItemId platformLogicalId with _ | mid
      · simp [findByLogicalId, hLid, hc, hm, hws]
      · simp [findByLogicalId, hLid, hc, hm, hws, hMap mid hm]
    · rcases hm : tryMapLogicalIdToItemId platformLogicalId with _ | mid
      · simp [findByLogicalId, hLid, hc, hm, hws, hCache cid hc]
      · simp [findByLogicalId, hLid, hc, hm, hws, hCache cid hc, hMap mid hm]
  have hs2 : findByDesiredName workspaceId platformLogicalId itemName
      semanticModels (("" : String), ("" : String), false,
        ([] : List DeployAction)) =
      (("" : String), ("" : String), false, ([] : List DeployAction)) := by
    unfold findByDesiredName
    simp only [hName itemName (by simp), ite_self]
  have hs3 : findByFallbackNames workspaceId platformLogicalId itemName
      prevName platformName databaseName semanticModels env
      (("" : String), ("" : String), false, ([] : List DeployAction)) =
      .ok (("" : String), ("" : String), false, ([] : List DeployAction)) := by
    unfold findByFallbackNames
    simp only [List.findSome?_cons, List.findSome?_nil,
      tryFallbackCandidate_no_match _ _ _ _ _ _ (hName prevName (by simp)),
      tryFallbackCandidate_no_match _ _ _ _ _ _ (hName platformName (by simp)),
      tryFallbackCandidate_no_match _ _ _ _ _ _ (hName databaseName (by simp)),
      ite_self]
  have hMain : deployReconcile workspaceId platformLogicalId itemName
      prevName platformName databaseName definitionPayload semanticModels
      cache env =
      (DeployOutcome.success "Successfully created semantic model",
        [DeployAction.createItem itemName definitionPayload]) := by
    unfold deployReconcile
    rw [hs1]
    simp only [hs2, hs3]
    rfl
  refine ⟨hMain, fun w l => ?_⟩
  rw [hMain]
  rfl

/-- Witness for C4 (amended) in a workspace whose only item matches
nothing. -/
theorem deployReconcile_create_path_witness :
    deployReconcile "ws1" "00112233-4455-6677-8899-aabbccddeeff" "Sales" ""
        "" "" "payload" [{ id := "item-9", displayName := "Inventory" }]
        LogicalMap.empty { renameOk := fun _ _ => true } =
      (DeployOutcome.success "Successfully created semantic model",
        [DeployAction.createItem "Sales" "payload"]) :=
  (deployReconcile_create_path "ws1" "00112233-4455-6677-8899-aabbccddeeff"
    "Sales" "" "" "" "payload"
    [{ id := "item-9", displayName := "Inventory" }] LogicalMap.empty
    { renameOk := fun _ _ => true } (by decide)
    (fun cid hc => Option.noConfusion hc)
    (fun mid hm => by
      rw [show tryMapLogicalIdToItemId "00112233-4455-6677-8899-aabbccddeeff" =
          some "ccddeeff-aabb-8899-6677-445500112233" from rfl] at hm
      injection hm with hm
      subst hm
      decide)
    (by decide)).1

/-- C4 (counterexample to the claim as stated): a deploy of a model with a
logical id into a workspace with no matching item creates the item but
leaves the mapping cache empty — afterwards the cache holds no entry for
the logical id, let alone one pointing at the created item. -/
theorem deployReconcile_create_does_not_seed_cache :
    deployReconcile "ws1" "00112233-4455-6677-8899-aabbccddeeff" "Sales" ""
        "" "" "payload" [] LogicalMap.empty
        { renameOk := fun _ _ => true } =
      (DeployOutcome.success "Successfully created semantic model",
        [DeployAction.createItem "Sales" "payload"]) ∧
    (applyDeployActions LogicalMap.empty
        (deployReconcile "ws1" "00112233-4455-6677-8899-aabbccddeeff" "Sales"
          "" "" "" "payload" [] LogicalMap.empty
          { renameOk := fun _ _ => true }).2).get
      "ws1" "00112233-4455-6677-8899-aabbccddeeff" = none := by
  constructor
  · rfl
  · rfl

end TmdlStudio
